import Mathlib

/-!
Verification development for the input-resolution engine of a visual
workflow-automation builder (the `InputResolver` of `sim`).

The resolver implementation itself is not part of the available sources;
only its test suite (`apps/sim/executor/resolver/resolver.test.ts`) is.
All resolver definitions below are therefore modelled from the
specification document, with the test suite fixing the behaviour wherever
the specification is ambiguous or internally inconsistent.  Each such
definition carries a doc comment starting with `Modelled from the spec:`.
-/

/-- JSON-like value tree.  Models the JavaScript values flowing through the
resolver (block outputs, resolved parameters, variable coercion results).
Numbers are modelled as integers: every numeric value appearing in the
specification and the test suite is integral, and floating point is out of
scope for this embedding. -/
inductive Value where
  | str (s : String)
  | num (n : Int)
  | bool (b : Bool)
  | null
  | arr (xs : List Value)
  | obj (fields : List (String × Value))
  deriving Repr

mutual

/-- Boolean equality on `Value` (used by the conditional input filter to
compare a resolved sibling value with a condition's expected value). -/
def valueBeq : Value → Value → Bool
  | .str a, .str b => a == b
  | .num a, .num b => a == b
  | .bool a, .bool b => a == b
  | .null, .null => true
  | .arr xs, .arr ys => valueListBeq xs ys
  | .obj xs, .obj ys => fieldListBeq xs ys
  | _, _ => false

def valueListBeq : List Value → List Value → Bool
  | [], [] => true
  | x :: xs, y :: ys => valueBeq x y && valueListBeq xs ys
  | _, _ => false

def fieldListBeq : List (String × Value) → List (String × Value) → Bool
  | [], [] => true
  | (k, v) :: xs, (l, w) :: ys => k == l && valueBeq v w && fieldListBeq xs ys
  | _, _ => false

end

/-- Escape a string for inclusion in a JSON / code string literal
(backslash, double quote, newline). -/
def jsonEscape (s : String) : String :=
  s.data.foldl (fun acc c =>
    if c = '\\' then acc ++ "\\\\"
    else if c = '"' then acc ++ "\\\""
    else if c = '\n' then acc ++ "\\n"
    else acc.push c) ""

/-- Render a string as a quoted, escaped literal. -/
def jsonQuote (s : String) : String :=
  "\"" ++ jsonEscape s ++ "\""

mutual

/-- Compact JSON serialization of a `Value` (the stringification the spec
prescribes for splicing structured values into text: numbers via default
decimal text, booleans as true/false, objects/arrays via compact JSON). -/
def jsonCompact : Value → String
  | .str s => jsonQuote s
  | .num n => toString n
  | .bool b => if b then "true" else "false"
  | .null => "null"
  | .arr xs => "[" ++ jsonCompactList xs ++ "]"
  | .obj fs => String.singleton '\x7b' ++ jsonCompactFields fs ++ String.singleton '\x7d'

def jsonCompactList : List Value → String
  | [] => ""
  | [v] => jsonCompact v
  | v :: rest => jsonCompact v ++ "," ++ jsonCompactList rest

def jsonCompactFields : List (String × Value) → String
  | [] => ""
  | [(k, v)] => jsonQuote k ++ ":" ++ jsonCompact v
  | (k, v) :: rest => jsonQuote k ++ ":" ++ jsonCompact v ++ "," ++ jsonCompactFields rest

end

/-- Textual splice form of a value: strings are inserted as-is, every other
value uses its compact JSON text (numbers via decimal text, booleans as
true/false, objects/arrays via compact JSON serialization). -/
def valueToText : Value → String
  | .str s => s
  | v => jsonCompact v

/-- Association-list lookup by string key (first match wins), the shape used
for every externally supplied map in this model. -/
def assocLookup {α : Type} : List (String × α) → String → Option α
  | [], _ => none
  | (k, v) :: rest, key => if k = key then some v else assocLookup rest key

/-- Whitespace test used by the trimming and name-normalization helpers. -/
def isWsChar (c : Char) : Bool :=
  c = ' ' || c = '\t' || c = '\n' || c = '\r'

/-- Trim leading and trailing whitespace (char-list level, so that all
definitions reduce by `rfl`). -/
def trimChars (cs : List Char) : List Char :=
  ((cs.dropWhile isWsChar).reverse.dropWhile isWsChar).reverse

/-- Modelled from the spec: display names are "normalized for matching" by
removing whitespace and lowercasing. -/
def normalizeName (s : String) : String :=
  String.mk ((s.data.filter (fun c => !isWsChar c)).map Char.toLower)

/-! Section: Reference grammar and matcher

Modelled from the spec §4.1: two token families, bracket references
`<HEAD[.PATH]>` and brace environment tokens.  A candidate angle-bracket
span whose interior does not conform to the identifier-path shape is left
as literal text; the original text outside matched spans is preserved
byte-for-byte. -/

/-- Characters allowed in a reference HEAD (letters, digits, hyphen, space,
underscore — per the spec, a block identifier or display name). -/
def isHeadChar (c : Char) : Bool :=
  c.isAlphanum || c = '-' || c = ' ' || c = '_'

/-- Characters allowed in a PATH segment (identifier characters and an
optional bracket index). -/
def isPathChar (c : Char) : Bool :=
  c.isAlphanum || c = '_' || c = '-' || c = '[' || c = ']'

/-- Split a character list at the dots (PATH separator). -/
def splitDots : List Char → List (List Char)
  | [] => [[]]
  | c :: rest =>
    let r := splitDots rest
    if c = '.' then [] :: r
    else match r with
      | [] => [[c]]
      | seg :: segs => (c :: seg) :: segs

/-- A HEAD chunk is non-empty, starts with a letter and contains only HEAD
characters.  This is the shape filter that rejects comparison/arithmetic
text such as a span whose interior is " 5 && 8 ". -/
def headChunkOk (cs : List Char) : Bool :=
  match cs with
  | [] => false
  | c :: _ => c.isAlpha && cs.all isHeadChar

/-- A PATH segment is non-empty and contains only path characters. -/
def pathSegOk (cs : List Char) : Bool :=
  !cs.isEmpty && cs.all isPathChar

/-- Modelled from the spec: a candidate match's interior conforms to the
`HEAD[.PATH]` identifier-path shape. -/
def refShapeOk (cs : List Char) : Bool :=
  match splitDots cs with
  | [] => false
  | h :: segs => headChunkOk h && segs.all pathSegOk

/-- A scanned string is a sequence of literal runs and accepted reference
tokens (the token carries the interior, without the angle brackets). -/
inductive Seg where
  | lit (cs : List Char)
  | tok (cs : List Char)
  deriving Repr, DecidableEq

/-- Flush the (reversed) pending literal accumulator in front of `rest`. -/
def flushPend (pend : List Char) (rest : List Seg) : List Seg :=
  if pend.isEmpty then rest else .lit pend.reverse :: rest

/-- Modelled from the spec: single left-to-right scan for `<...>` spans.
`pend` is the reversed literal run accumulated so far; `inner` is `some i`
(reversed interior) while inside a candidate span opened by the most recent
unconsumed angle bracket.  A span closes at the nearest subsequent closing
bracket; a conforming interior becomes a token, a non-conforming interior
is spilled back as literal text (matching the behaviour of a global regex
whose per-match shape check fails).  An unterminated opener is literal. -/
def scanGo : List Char → List Char → Option (List Char) → List Seg
  | [], pend, none => flushPend pend []
  | [], pend, some inner => flushPend (inner ++ '<' :: pend) []
  | c :: cs, pend, none =>
    if c = '<' then scanGo cs pend (some [])
    else scanGo cs (c :: pend) none
  | c :: cs, pend, some inner =>
    if c = '>' then
      if refShapeOk inner.reverse then
        flushPend pend (.tok inner.reverse :: scanGo cs [] none)
      else
        scanGo cs ('>' :: inner ++ '<' :: pend) none
    else
      scanGo cs pend (some (c :: inner))

/-- Scan a string for bracket-reference candidates. -/
def scanRefs (s : String) : List Seg :=
  scanGo s.data [] none

/-- Reassemble the scanned segments into the original character stream. -/
def rebuild : List Seg → List Char
  | [] => []
  | .lit l :: r => l ++ rebuild r
  | .tok t :: r => '<' :: (t ++ '>' :: rebuild r)

/-- Characters allowed in a `\x7b\x7bNAME\x7d\x7d` environment token. -/
def isEnvChar (c : Char) : Bool :=
  c.isAlphanum || c = '_'

/-- An environment token name is a non-empty identifier. -/
def envNameOk (cs : List Char) : Bool :=
  !cs.isEmpty && cs.all isEnvChar

/-- Modelled from the spec: scan for brace environment tokens, the second,
disjoint token family.  Same accumulator discipline as `scanGo`, with
two-character delimiters. -/
def scanEnvGo : List Char → List Char → Option (List Char) → List Seg
  | [], pend, none => flushPend pend []
  | [], pend, some inner => flushPend (inner ++ '\x7b' :: '\x7b' :: pend) []
  | '\x7b' :: '\x7b' :: cs, pend, none => scanEnvGo cs pend (some [])
  | c :: cs, pend, none => scanEnvGo cs (c :: pend) none
  | '\x7d' :: '\x7d' :: cs, pend, some inner =>
    if envNameOk inner.reverse then
      flushPend pend (.tok inner.reverse :: scanEnvGo cs [] none)
    else
      scanEnvGo cs ('\x7d' :: '\x7d' :: inner ++ '\x7b' :: '\x7b' :: pend) none
  | c :: cs, pend, some inner => scanEnvGo cs pend (some (c :: inner))

/-- Scan a string for environment-token candidates. -/
def scanEnvTokens (s : String) : List Seg :=
  scanEnvGo s.data [] none

/-- Reassemble environment-token segments into the original stream. -/
def rebuildEnv : List Seg → List Char
  | [] => []
  | .lit l :: r => l ++ rebuildEnv r
  | .tok t :: r => '\x7b' :: '\x7b' :: (t ++ '\x7d' :: '\x7d' :: rebuildEnv r)

/-- Whether a segment is a literal run (no accepted token). -/
def Seg.isLit : Seg → Bool
  | .lit _ => true
  | .tok _ => false

/-- Whether a string consists of nothing but one environment token. -/
def isWholeEnvToken (s : String) : Bool :=
  match scanEnvTokens s with
  | [.tok _] => true
  | _ => false

/-! Section: Data model

Modelled from the spec §3: blocks, connections, loop/parallel descriptors,
workflow variables, and the externally supplied execution context. -/

/-- A workflow variable: id, name (matched case/space-insensitively on
resolution), declared type (plain/string/number/boolean/object/array) and
the raw textual value, stored verbatim. -/
structure Variable where
  id : String
  name : String
  type : String
  value : String
  deriving Repr

/-- A workflow block: unique id, display name, block-type tag (drives the
formatter's code-vs-literal policy and pass-through rules), enabled flag
and the declared parameter tree. -/
structure Block where
  id : String
  name : String
  type : String
  enabled : Bool
  params : List (String × Value)
  deriving Repr

/-- A loop descriptor: member block ids, total iteration count, loop kind
and, for forEach loops, the static item collection. -/
structure LoopDef where
  id : String
  nodes : List String
  iterations : Int
  loopType : String
  forEachItems : Option Value
  deriving Repr

/-- A parallel descriptor, the parallel counterpart of `LoopDef`. -/
structure ParallelDef where
  id : String
  nodes : List String
  distribution : Option Value
  deriving Repr

/-- The workflow graph as consumed by the resolver (read-only): blocks,
directed connections (source, target), loop and parallel descriptors. -/
structure Workflow where
  blocks : List Block
  connections : List (String × String)
  loops : List LoopDef
  parallels : List ParallelDef
  deriving Repr

/-- Modelled from the spec: the execution context supplied per resolution
call.  A block's output is present in `blockOutputs` only once the block
has executed (which is how "has not executed" is witnessed), and
`activeExecutionPath` holds the blocks active for this run.  Loop/parallel
iteration counters and current-item snapshots are keyed by descriptor id;
the live full-items snapshot of a loop `L` is keyed `L_items`. -/
structure ExecContext where
  blockOutputs : List (String × Value)
  activeExecutionPath : List String
  loopIterations : List (String × Int)
  loopItems : List (String × Value)
  deriving Repr

/-- The expected value(s) of a visibility condition: equality against a
scalar or membership in a list of scalars. -/
inductive CondOperand where
  | scalar (v : Value)
  | anyOf (vs : List Value)
  deriving Repr

/-- One field-vs-value visibility test; `negate` models the condition's
`not` flag. -/
structure SimpleCondition where
  field : String
  operand : CondOperand
  negate : Bool
  deriving Repr

/-- A declared visibility condition: a base test plus the single-level
`and` composition with a second test. -/
structure SubBlockCondition where
  base : SimpleCondition
  andAlso : Option SimpleCondition
  deriving Repr

/-- A declared sub-field of a block's schema: its id and optional
visibility condition. -/
structure SubBlock where
  id : String
  condition : Option SubBlockCondition
  deriving Repr

/-- A block type's declarative schema (the relevant part: its sub-fields). -/
structure BlockConfig where
  subBlocks : List SubBlock
  deriving Repr

/-- Modelled from the spec: everything the resolver is constructed with.
`accessibleBlocksMap` is the externally owned accessibility map (`none`
means the gate fails closed, denying every block-output reference except
the starter alias).  `secretKeys` is the external designation of
secret-bearing (API-key-shaped) parameter fields.  `blockConfigs` is the
block-type registry consulted by the conditional input filter. -/
structure ResolverEnv where
  workflow : Workflow
  envVars : List (String × String)
  workflowVars : List (String × Variable)
  accessibleBlocksMap : Option (List (String × List String))
  secretKeys : List String
  blockConfigs : List (String × BlockConfig)
  deriving Repr

/-! Section: Errors -/

/-- Modelled from the spec §7: the resolver's fatal error taxonomy.
`unconnectedBlockReference` carries the human-readable names of the blocks
that ARE accessible from the referencing block (its message enumerates
them); `disabledBlockReference` names the offending block.  A malformed
stored variable value surfaces as `invalidVariableValue` when referenced,
and a missing environment variable as `missingEnvVar`. -/
inductive ResolveError where
  | disabledBlockReference (blockName : String)
  | unconnectedBlockReference (ref : String) (accessibleNames : List String)
  | invalidVariableValue (name : String)
  | missingEnvVar (name : String)
  deriving Repr, DecidableEq

/-! Section: JSON parsing (for object/array variable coercion) -/

/-- Drop leading JSON whitespace. -/
def skipWs (cs : List Char) : List Char :=
  cs.dropWhile isWsChar

/-- Parse the remainder of a JSON string literal (after the opening quote),
accumulating in reverse. -/
def pStr : List Char → List Char → Option (String × List Char)
  | [], _ => none
  | '"' :: rest, acc => some (String.mk acc.reverse, rest)
  | '\\' :: e :: rest, acc =>
    if e = 'n' then pStr rest ('\n' :: acc)
    else if e = 't' then pStr rest ('\t' :: acc)
    else if e = '"' then pStr rest ('"' :: acc)
    else if e = '\\' then pStr rest ('\\' :: acc)
    else none
  | c :: rest, acc => pStr rest (c :: acc)

/-- Parse a run of decimal digits, accumulating the value. -/
def pDigits : List Char → Option (Nat × List Char) → Option (Nat × List Char)
  | c :: rest, acc =>
    if c.isDigit then
      let sofar := (acc.map (·.1)).getD 0
      pDigits rest (some (sofar * 10 + (c.toNat - '0'.toNat), rest))
    else acc
  | [], acc => acc

/-- Parse an integral JSON number (optional minus sign, digits). -/
def pNum (cs : List Char) : Option (Int × List Char) :=
  match cs with
  | '-' :: rest =>
    match pDigits rest none with
    | some (n, rest2) => some (-(n : Int), rest2)
    | none => none
  | _ =>
    match pDigits cs none with
    | some (n, rest2) => some ((n : Int), rest2)
    | none => none

mutual

/-- Fuel-bounded parser for an integral-numbered JSON value. -/
def pJson : Nat → List Char → Option (Value × List Char)
  | 0, _ => none
  | fuel + 1, cs =>
    match skipWs cs with
    | 't' :: 'r' :: 'u' :: 'e' :: rest => some (.bool true, rest)
    | 'f' :: 'a' :: 'l' :: 's' :: 'e' :: rest => some (.bool false, rest)
    | 'n' :: 'u' :: 'l' :: 'l' :: rest => some (.null, rest)
    | '"' :: rest =>
      match pStr rest [] with
      | some (s, rest2) => some (.str s, rest2)
      | none => none
    | '[' :: rest =>
      (match skipWs rest with
       | ']' :: rest2 => some (.arr [], rest2)
       | _ =>
         match pArrItems fuel rest with
         | some (xs, rest2) => some (.arr xs, rest2)
         | none => none)
    | '\x7b' :: rest =>
      (match skipWs rest with
       | '\x7d' :: rest2 => some (.obj [], rest2)
       | _ =>
         match pObjItems fuel rest with
         | some (fs, rest2) => some (.obj fs, rest2)
         | none => none)
    | other =>
      match pNum other with
      | some (n, rest) => some (.num n, rest)
      | none => none

/-- Comma-separated JSON array items, up to the closing bracket. -/
def pArrItems : Nat → List Char → Option (List Value × List Char)
  | 0, _ => none
  | fuel + 1, cs =>
    match pJson fuel cs with
    | none => none
    | some (v, rest) =>
      match skipWs rest with
      | ',' :: rest2 =>
        (match pArrItems fuel rest2 with
         | some (xs, rest3) => some (v :: xs, rest3)
         | none => none)
      | ']' :: rest2 => some ([v], rest2)
      | _ => none

/-- Comma-separated JSON object fields, up to the closing brace. -/
def pObjItems : Nat → List Char → Option (List (String × Value) × List Char)
  | 0, _ => none
  | fuel + 1, cs =>
    match skipWs cs with
    | '"' :: rest =>
      (match pStr rest [] with
       | none => none
       | some (k, rest2) =>
         match skipWs rest2 with
         | ':' :: rest3 =>
           (match pJson fuel rest3 with
            | none => none
            | some (v, rest4) =>
              match skipWs rest4 with
              | ',' :: rest5 =>
                (match pObjItems fuel rest5 with
                 | some (fs, rest6) => some ((k, v) :: fs, rest6)
                 | none => none)
              | '\x7d' :: rest5 => some ([(k, v)], rest5)
              | _ => none)
         | _ => none)
    | _ => none

end

/-- Parse a complete JSON text (trailing whitespace allowed). -/
def jsonParse (s : String) : Option Value :=
  match pJson (s.length + 1) s.data with
  | some (v, rest) => if (skipWs rest).isEmpty then some v else none
  | none => none

/-- Parse an integer from raw variable text (optional sign, digits only). -/
def parseIntText (s : String) : Option Int :=
  match trimChars s.data with
  | [] => none
  | '-' :: ds => if !ds.isEmpty && ds.all Char.isDigit then
      some (-((ds.foldl (fun a c => a * 10 + (c.toNat - '0'.toNat)) 0 : Nat) : Int))
    else none
  | ds => if ds.all Char.isDigit then
      some (((ds.foldl (fun a c => a * 10 + (c.toNat - '0'.toNat)) 0 : Nat) : Int))
    else none

/-- Parse a case-insensitive boolean from raw variable text. -/
def parseBoolText (s : String) : Option Bool :=
  let t := (trimChars s.data).map Char.toLower
  if t = "true".data then some true
  else if t = "false".data then some false
  else none

/-! Section: Value resolver, accessibility gate, formatter

Modelled from the spec §4.2–§4.5, with the behaviour at the spec's two
internal inconsistencies fixed by the repository's test suite:
* a conforming block-output reference whose HEAD matches no block is a
  hard deny (spec §3: "absence of an id from the set is a hard-deny,
  independent of whether that block exists"; test
  "should provide helpful error messages for unconnected blocks"), not a
  literal leftover;
* variable references splice their value raw even in code-context blocks
  (spec §8: a plain variable "is never quote-escaped"; test
  "should handle code input for function blocks"), while block-output
  references in code-context blocks quote spliced strings. -/

/-- The kind of an accepted, resolved reference; the formatter's quoting
policy distinguishes variable references from the rest. -/
inductive RefKind where
  | variableRef
  | contextRef
  | blockRef
  deriving Repr, DecidableEq

/-- First block satisfying a predicate. -/
def findFirst (p : Block → Bool) : List Block → Option Block
  | [] => none
  | b :: rest => if p b then some b else findFirst p rest

/-- Modelled from the spec: a block-output HEAD is matched against, in
order, exact block id, exact display name, and whitespace-removed
lowercased display name. -/
def findBlockByRef (wf : Workflow) (ref : String) : Option Block :=
  match findFirst (fun b => b.id == ref) wf.blocks with
  | some b => some b
  | none =>
    match findFirst (fun b => b.name == ref) wf.blocks with
    | some b => some b
    | none => findFirst (fun b => normalizeName b.name == normalizeName ref) wf.blocks

/-- The unique starter block (by block-type tag). -/
def starterBlock (wf : Workflow) : Option Block :=
  findFirst (fun b => b.type == "starter") wf.blocks

/-- The target of a block-output reference: the HEAD `start` is the starter
alias, every other HEAD is matched against ids and names. -/
def blockTargetOf (wf : Workflow) (head : String) : Option Block :=
  if head = "start" then starterBlock wf else findBlockByRef wf head

/-- The ids the referencing block may legally reference.  With no
accessibility map supplied the gate fails closed (empty set: deny all
block-output references except the starter alias). -/
def accessibleIds (env : ResolverEnv) (blkId : String) : List String :=
  match env.accessibleBlocksMap with
  | none => []
  | some m => (assocLookup m blkId).getD []

/-- The human-readable names enumerated by an `unconnectedBlockReference`
error: the display names of the workflow blocks in the referencing block's
accessibility set. -/
def accessibleNames (env : ResolverEnv) (blkId : String) : List String :=
  (env.workflow.blocks.filter (fun b => (accessibleIds env blkId).contains b.id)).map (·.name)

/-- Whether the gate authorizes a block-output reference: the starter block
is always trivially authorized, every other target must be a member of the
referencing block's accessibility set. -/
def blockAuthorized (env : ResolverEnv) (blkId : String) (target : Block) : Bool :=
  target.type == "starter" || (accessibleIds env blkId).contains target.id

/-- Dot-addressed read of a PATH from a recorded output object. -/
def digPath : Value → List String → Value
  | v, [] => v
  | .obj fs, seg :: rest =>
    (match assocLookup fs seg with
     | some v2 => digPath v2 rest
     | none => .null)
  | _, _ :: _ => .null

/-- Modelled from the spec: coerce a variable's raw text per its declared
type (number → numeric parse, boolean → case-insensitive true/false parse,
object/array → JSON parse, plain/string → verbatim).  A malformed stored
value fails to coerce, surfacing as a resolution error only when actually
referenced. -/
def coerceVariable (v : Variable) : Except ResolveError Value :=
  if v.type = "number" then
    match parseIntText v.value with
    | some n => .ok (.num n)
    | none => .error (.invalidVariableValue v.name)
  else if v.type = "boolean" then
    match parseBoolText v.value with
    | some b => .ok (.bool b)
    | none => .error (.invalidVariableValue v.name)
  else if v.type = "object" ∨ v.type = "array" then
    match jsonParse v.value with
    | some w => .ok w
    | none => .error (.invalidVariableValue v.name)
  else .ok (.str v.value)

/-- Look up a workflow variable by name, case/space-insensitively. -/
def lookupVariableByName (env : ResolverEnv) (name : String) : Option Variable :=
  go (env.workflowVars.map (·.2))
where
  go : List Variable → Option Variable
    | [] => none
    | v :: rest => if normalizeName v.name = normalizeName name then some v else go rest

/-- The loops a block is a declared member of. -/
def loopsContaining (wf : Workflow) (blkId : String) : List LoopDef :=
  wf.loops.filter (fun l => l.nodes.contains blkId)

/-- The parallels a block is a declared member of. -/
def parallelsContaining (wf : Workflow) (blkId : String) : List ParallelDef :=
  wf.parallels.filter (fun p => p.nodes.contains blkId)

/-- Modelled from the spec: loop-context values.  `currentItem` is the
loop's current per-iteration snapshot; `index` is the 0-based index,
computed as recorded iteration count − 1; `items` prefers the live
per-loop snapshot (key `id_items`) and falls back to the loop's static
forEach collection. -/
def resolveLoopPath (ctx : ExecContext) (l : LoopDef) : List String → Option Value
  | ["currentItem"] => some ((assocLookup ctx.loopItems l.id).getD .null)
  | ["index"] => some (.num ((assocLookup ctx.loopIterations l.id).getD 0 - 1))
  | ["items"] =>
    some (match assocLookup ctx.loopItems (l.id ++ "_items") with
          | some v => v
          | none => l.forEachItems.getD .null)
  | _ => none

/-- Parallel-context values, same shape as `resolveLoopPath` against the
parallel descriptor. -/
def resolveParallelPath (ctx : ExecContext) (p : ParallelDef) : List String → Option Value
  | ["currentItem"] => some ((assocLookup ctx.loopItems p.id).getD .null)
  | ["index"] => some (.num ((assocLookup ctx.loopIterations p.id).getD 0 - 1))
  | ["items"] =>
    some (match assocLookup ctx.loopItems (p.id ++ "_items") with
          | some v => v
          | none => p.distribution.getD .null)
  | _ => none

/-- The loop/parallel-context value of a token, when its HEAD is `loop` or
`parallel` and the referencing block is a declared member of exactly one
loop (resp. parallel) and the PATH is one of the three context fields. -/
def contextValue (env : ResolverEnv) (ctx : ExecContext) (blk : Block)
    (head : String) (path : List String) : Option Value :=
  if head = "loop" then
    match loopsContaining env.workflow blk.id with
    | [l] => resolveLoopPath ctx l path
    | _ => none
  else if head = "parallel" then
    match parallelsContaining env.workflow blk.id with
    | [p] => resolveParallelPath ctx p path
    | _ => none
  else none

/-- Modelled from the spec §4.3/§4.4: the accessibility gate and value
fetch for a block-output reference whose target block was found.  The
enabled check and the accessibility check are evaluated before checking
whether the block has actually executed; an authorized target that has not
executed (no recorded output) or lies outside the active execution path
soft-fails to the empty string. -/
def resolveBlockTarget (env : ResolverEnv) (ctx : ExecContext) (blk : Block)
    (ref : String) (target : Block) (path : List String) :
    Except ResolveError (RefKind × Value) :=
  if !target.enabled then
    .error (.disabledBlockReference target.name)
  else if !blockAuthorized env blk.id target then
    .error (.unconnectedBlockReference ref (accessibleNames env blk.id))
  else
    match assocLookup ctx.blockOutputs target.id with
    | none => .ok (.blockRef, .str "")
    | some out =>
      if ctx.activeExecutionPath.contains target.id then
        .ok (.blockRef, digPath out path)
      else
        .ok (.blockRef, .str "")

/-- Modelled from the spec §4.2–§4.4: classify and resolve one conforming
bracket token.  `ok none` means the token stays literal text (a variable
reference to an unknown variable name); a block-output reference whose
HEAD matches no block at all is a hard deny, raising
`unconnectedBlockReference` with the accessible names (spec §3 invariant,
pinned by the test suite). -/
def resolveTok (env : ResolverEnv) (ctx : ExecContext) (blk : Block)
    (head : String) (path : List String) :
    Except ResolveError (Option (RefKind × Value)) :=
  if head = "variable" then
    match lookupVariableByName env (String.intercalate "." path) with
    | none => .ok none
    | some v => (coerceVariable v).map (fun w => some (.variableRef, w))
  else
    match contextValue env ctx blk head path with
    | some v => .ok (some (.contextRef, v))
    | none =>
      match blockTargetOf env.workflow head with
      | none => .error (.unconnectedBlockReference head (accessibleNames env blk.id))
      | some target => (resolveBlockTarget env ctx blk head target path).map some

/-! Section: Formatter, environment substitution, and the top-level pipeline -/

/-- Modelled from the spec: block types whose parameters are interpreted as
code/expression snippets (function bodies, condition predicates). -/
def isCodeBlockType (t : String) : Bool :=
  t == "function" || t == "condition"

/-- Modelled from the spec §4.5 (context axis, fixed by the test suite):
the text a resolved value splices into surrounding text.  Variable
references splice their value raw; for the other reference kinds a string
value spliced into a code-context block is rendered as a quoted, escaped
string literal, while plain display/content blocks splice strings raw.
Non-string values splice as their bare literal text either way. -/
def spliceText (codeCtx : Bool) (kind : RefKind) (v : Value) : String :=
  match kind, v with
  | .variableRef, w => valueToText w
  | _, .str s => if codeCtx then jsonQuote s else s
  | _, w => valueToText w

/-- Left-to-right textual splice of the scanned segments: literal runs are
kept byte-for-byte, tokens are resolved and formatted (an `ok none`
resolution keeps the token's original text). -/
def spliceSegs (env : ResolverEnv) (ctx : ExecContext) (blk : Block) :
    List Seg → Except ResolveError String
  | [] => .ok ""
  | .lit l :: rest => do
    let r ← spliceSegs env ctx blk rest
    pure (String.mk l ++ r)
  | .tok t :: rest => do
    let h ← match splitDots t with
      | [] => pure (String.mk ('<' :: (t ++ ['>'])))
      | hd :: segs =>
        (resolveTok env ctx blk (String.mk hd) (segs.map String.mk)).map (fun r =>
          match r with
          | none => String.mk ('<' :: (t ++ ['>']))
          | some (k, v) => spliceText (isCodeBlockType blk.type) k v)
    let r ← spliceSegs env ctx blk rest
    pure (h ++ r)

/-- Modelled from the spec §4.1: environment-variable substitution for one
string.  Substitution happens only when the encompassing field is a
designated secret-bearing field or when the string consists of nothing but
one environment token; otherwise every brace token is left untouched
verbatim.  When substitution applies, each token is replaced by the
environment variable's value (a missing name is an error). -/
def resolveEnvInString (env : ResolverEnv) (key : String) (s : String) :
    Except ResolveError String :=
  if env.secretKeys.contains key ∨ isWholeEnvToken s = true then
    (go (scanEnvTokens s)).map String.mk
  else .ok s
where
  go : List Seg → Except ResolveError (List Char)
    | [] => .ok []
    | .lit l :: rest => (go rest).map (fun r => l ++ r)
    | .tok t :: rest =>
      match assocLookup env.envVars (String.mk t) with
      | none => .error (.missingEnvVar (String.mk t))
      | some v => (go rest).map (fun r => v.data ++ r)

/-- Modelled from the spec §4.5: parameter names designated pass-through
for specific block types (the condition block's predicate field), excluded
from this resolution pass entirely. -/
def isPassThroughParam (btype key : String) : Bool :=
  btype == "condition" && key == "conditions"

/-- Modelled from the spec §4.4/§4.5: resolve one string parameter.
Placement axis: if the entire parameter (after trimming) is exactly one
reference token, resolution is a structural replacement and the parameter
takes the native resolved value; otherwise every token is spliced as text.
One exception, fixed by the test suite ("should work with block names and
normalized names", "should resolve parallel references by block name"): a
whole-parameter block-output reference in a code-context block is still
rendered as code text (strings quoted, structured values as compact JSON),
since the parameter is a code snippet.  The environment-token pass then
applies to a string result. -/
def resolveString (env : ResolverEnv) (ctx : ExecContext) (blk : Block)
    (key s : String) : Except ResolveError Value :=
  if isPassThroughParam blk.type key then .ok (.str s)
  else
    match scanGo (trimChars s.data) [] none with
    | [.tok t] =>
      (match splitDots t with
       | [] => (resolveEnvInString env key s).map .str
       | hd :: segs => do
         match ← resolveTok env ctx blk (String.mk hd) (segs.map String.mk) with
         | none => (resolveEnvInString env key s).map .str
         | some (k, v) =>
           if isCodeBlockType blk.type ∧ k = RefKind.blockRef then
             (resolveEnvInString env key (spliceText true k v)).map .str
           else
             match v with
             | .str s2 => (resolveEnvInString env key s2).map .str
             | v => pure v)
    | _ => do
      let out ← spliceSegs env ctx blk (scanRefs s)
      (resolveEnvInString env key out).map .str

mutual

/-- Resolve one declared parameter value, recursing through arrays and
objects (table rows and cells) and resolving every string found. -/
def resolveParamValue (env : ResolverEnv) (ctx : ExecContext) (blk : Block)
    (key : String) : Value → Except ResolveError Value
  | .str s => resolveString env ctx blk key s
  | .arr xs => (resolveParamList env ctx blk key xs).map .arr
  | .obj fs => (resolveParamFields env ctx blk key fs).map .obj
  | v => .ok v

def resolveParamList (env : ResolverEnv) (ctx : ExecContext) (blk : Block)
    (key : String) : List Value → Except ResolveError (List Value)
  | [] => .ok []
  | v :: rest => do
    let rv ← resolveParamValue env ctx blk key v
    let rs ← resolveParamList env ctx blk key rest
    pure (rv :: rs)

def resolveParamFields (env : ResolverEnv) (ctx : ExecContext) (blk : Block)
    (key : String) : List (String × Value) → Except ResolveError (List (String × Value))
  | [] => .ok []
  | (k, v) :: rest => do
    let rv ← resolveParamValue env ctx blk key v
    let rs ← resolveParamFields env ctx blk key rest
    pure ((k, rv) :: rs)

end

/-! Section: Conditional input filter (spec §4.6) -/

/-- Evaluate one field-vs-value test against the already-resolved sibling
values, applying the `not` negation flag. -/
def condMatches (resolved : List (String × Value)) (c : SimpleCondition) : Bool :=
  let b := match assocLookup resolved c.field with
    | none => false
    | some v =>
      match c.operand with
      | .scalar w => valueBeq v w
      | .anyOf ws => ws.any (valueBeq v)
  if c.negate then !b else b

/-- Evaluate a declared visibility condition (base test, with the
single-level `and` composition). -/
def condHolds (resolved : List (String × Value)) (c : SubBlockCondition) : Bool :=
  condMatches resolved c.base &&
    (match c.andAlso with
     | none => true
     | some c2 => condMatches resolved c2)

/-- Modelled from the spec §4.6: the post-resolution conditional filter.
With no declarative schema found, no filtering occurs and every resolved
field is retained.  Otherwise a field is retained iff its declared
sub-fields impose no constraint (none with that id) or some declared
sub-field with that id has no condition or a condition that evaluates true
against the already-resolved sibling values. -/
def filterInputs (cfg : Option BlockConfig) (resolved : List (String × Value)) :
    List (String × Value) :=
  match cfg with
  | none => resolved
  | some cfg =>
    resolved.filter fun kv =>
      let matching := cfg.subBlocks.filter (fun sb => sb.id == kv.1)
      matching.isEmpty ||
        matching.any (fun sb =>
          match sb.condition with
          | none => true
          | some c => condHolds resolved c)

/-- Resolve the declared parameters in order; failure on one parameter
aborts resolution of the whole parameter map. -/
def resolveParams (env : ResolverEnv) (ctx : ExecContext) (blk : Block) :
    List (String × Value) → Except ResolveError (List (String × Value))
  | [] => .ok []
  | (k, v) :: rest => do
    let rv ← resolveParamValue env ctx blk k v
    let rs ← resolveParams env ctx blk rest
    pure ((k, rv) :: rs)

/-- Modelled from the spec §2/§4: `resolveInputs` — resolve every declared
parameter of the block against the execution context, then pass the
assembled map through the conditional input filter (consulting the
block-type registry for the block's declarative schema). -/
def resolveInputs (env : ResolverEnv) (blk : Block) (ctx : ExecContext) :
    Except ResolveError (List (String × Value)) := do
  let resolved ← resolveParams env ctx blk blk.params
  pure (filterInputs (assocLookup env.blockConfigs blk.type) resolved)

/-! Section: Concrete fixtures

These mirror the fixtures of `resolver.test.ts` (the sample workflow of the
suite's beforeEach, the connection-validation workflow, the loop workflow
and the knowledge-block schema). -/

/-- The five blocks of the sample workflow. -/
def sampleBlocks : List Block :=
  [ { id := "starter-block", name := "Start", type := "starter", enabled := true, params := [] },
    { id := "function-block", name := "Function", type := "function", enabled := true, params := [] },
    { id := "condition-block", name := "Condition", type := "condition", enabled := true, params := [] },
    { id := "api-block", name := "API", type := "api", enabled := true, params := [] },
    { id := "disabled-block", name := "Disabled Block", type := "generic", enabled := false, params := [] } ]

/-- Every id known to the sample accessibility map. -/
def sampleAllIds : List String :=
  ["starter-block", "function-block", "condition-block", "api-block", "disabled-block",
   "test-block", "test-block-2", "generic-block"]

/-- The sample accessibility map: every block may reference every id. -/
def sampleAccess : List (String × List String) :=
  sampleAllIds.map (fun i => (i, sampleAllIds))

/-- The sample workflow. -/
def sampleWorkflow : Workflow :=
  { blocks := sampleBlocks,
    connections := [("starter-block", "function-block"), ("function-block", "condition-block"),
                    ("condition-block", "api-block"), ("api-block", "disabled-block")],
    loops := [], parallels := [] }

/-- The sample execution context: starter and function have executed and
are on the active path. -/
def mockCtx : ExecContext :=
  { blockOutputs :=
      [ ("starter-block", .obj [("input", .str "Hello World"), ("type", .str "text")]),
        ("function-block", .obj [("result", .str "42")]) ],
    activeExecutionPath := ["starter-block", "function-block"],
    loopIterations := [], loopItems := [] }

/-- The six sample workflow variables, with the number variable's raw text
abstracted so that theorems can quantify over it. -/
def mockVarsWith (numRaw : String) : List (String × Variable) :=
  [ ("var1", { id := "var1", name := "stringVar", type := "string", value := "Hello" }),
    ("var2", { id := "var2", name := "numberVar", type := "number", value := numRaw }),
    ("var3", { id := "var3", name := "boolVar", type := "boolean", value := "true" }),
    ("var4", { id := "var4", name := "objectVar", type := "object",
               value := "\x7b\"name\":\"John\",\"age\":30\x7d" }),
    ("var5", { id := "var5", name := "arrayVar", type := "array", value := "[1,2,3]" }),
    ("var6", { id := "var6", name := "plainVar", type := "plain", value := "Raw text without quotes" }) ]

/-- The sample environment variables. -/
def mockEnvVars : List (String × String) :=
  [("API_KEY", "test-api-key"), ("BASE_URL", "https://api.example.com")]

/-- The sample resolver environment (number variable raw text abstracted). -/
def baseEnvWith (numRaw : String) : ResolverEnv :=
  { workflow := sampleWorkflow,
    envVars := mockEnvVars,
    workflowVars := mockVarsWith numRaw,
    accessibleBlocksMap := some sampleAccess,
    secretKeys := ["apiKey", "url"],
    blockConfigs := [] }

/-- The sample resolver environment as in the suite (numberVar = "42"). -/
def baseEnv : ResolverEnv := baseEnvWith "42"

/-- A generic referencing block with the given parameters. -/
def testBlockWith (ps : List (String × Value)) : Block :=
  { id := "test-block", name := "Test Block", type := "generic", enabled := true, params := ps }

/-- A function-type referencing block with the given parameters. -/
def functionBlockWith (i nm : String) (ps : List (String × Value)) : Block :=
  { id := i, name := nm, type := "function", enabled := true, params := ps }

/-- The four blocks of the connection-validation workflow, plus the pushed
test blocks. -/
def connBlocks : List Block :=
  [ { id := "starter-1", name := "Start", type := "starter", enabled := true, params := [] },
    { id := "agent-1", name := "Agent Block", type := "agent", enabled := true, params := [] },
    { id := "function-1", name := "Function Block", type := "function", enabled := true, params := [] },
    { id := "isolated-block", name := "Isolated Block", type := "agent", enabled := true, params := [] },
    { id := "test-block", name := "Test Block", type := "function", enabled := true, params := [] },
    { id := "test-block-2", name := "Test Block 2", type := "function", enabled := true, params := [] } ]

/-- Accessibility of the connection workflow: direct upstream connections
plus the always-allowed starter block. -/
def connAccess : List (String × List String) :=
  [ ("starter-1", ["starter-1"]),
    ("agent-1", ["starter-1"]),
    ("function-1", ["agent-1", "starter-1"]),
    ("isolated-block", ["starter-1"]),
    ("test-block", ["function-1", "agent-1", "starter-1"]),
    ("test-block-2", ["agent-1", "starter-1"]) ]

/-- The connection-validation workflow. -/
def connWorkflow : Workflow :=
  { blocks := connBlocks,
    connections := [("starter-1", "agent-1"), ("agent-1", "function-1"),
                    ("function-1", "test-block"), ("agent-1", "test-block-2")],
    loops := [], parallels := [] }

/-- The connection-validation resolver environment. -/
def connEnv : ResolverEnv :=
  { workflow := connWorkflow,
    envVars := [], workflowVars := [],
    accessibleBlocksMap := some connAccess,
    secretKeys := ["apiKey", "url"],
    blockConfigs := [] }

/-- The connection-validation execution context: all four workflow blocks
have executed and are active. -/
def connCtx : ExecContext :=
  { blockOutputs :=
      [ ("starter-1", .obj [("input", .str "Hello World")]),
        ("agent-1", .obj [("content", .str "Agent response")]),
        ("function-1", .obj [("result", .str "Function result")]),
        ("isolated-block", .obj [("content", .str "Isolated content")]) ],
    activeExecutionPath := ["starter-1", "agent-1", "function-1", "isolated-block"],
    loopIterations := [], loopItems := [] }

/-- The for-loop workflow of the direct-loop-reference tests. -/
def loopWorkflow : Workflow :=
  { blocks :=
      [ { id := "loop-1", name := "Test Loop", type := "loop", enabled := true, params := [] },
        { id := "function-1", name := "Process Index", type := "function", enabled := true, params := [] } ],
    connections := [],
    loops := [ { id := "loop-1", nodes := ["function-1"], iterations := 5,
                 loopType := "for", forEachItems := none } ],
    parallels := [] }

/-- Resolver environment of the loop tests (no accessibility map supplied). -/
def loopEnv : ResolverEnv :=
  { workflow := loopWorkflow,
    envVars := [], workflowVars := [],
    accessibleBlocksMap := none,
    secretKeys := ["apiKey", "url"],
    blockConfigs := [] }

/-- Execution context of the loop.index test: recorded iteration count 3. -/
def loopCtx : ExecContext :=
  { blockOutputs := [], activeExecutionPath := ["function-1"],
    loopIterations := [("loop-1", 3)], loopItems := [] }

/-- The knowledge block's declarative schema (as mocked in the filter
tests): query and knowledgeBaseIds are visible for the search operation,
documentId and content for upload_chunk. -/
def knowledgeConfig : BlockConfig :=
  { subBlocks :=
      [ { id := "operation", condition := none },
        { id := "query", condition := some
            { base := { field := "operation", operand := .scalar (.str "search"), negate := false },
              andAlso := none } },
        { id := "knowledgeBaseIds", condition := some
            { base := { field := "operation", operand := .scalar (.str "search"), negate := false },
              andAlso := none } },
        { id := "documentId", condition := some
            { base := { field := "operation", operand := .scalar (.str "upload_chunk"), negate := false },
              andAlso := none } },
        { id := "content", condition := some
            { base := { field := "operation", operand := .scalar (.str "upload_chunk"), negate := false },
              andAlso := none } } ] }

/-- The sample environment extended with the knowledge schema in the
block-type registry. -/
def knowledgeEnv : ResolverEnv :=
  { baseEnv with blockConfigs := [("knowledge", knowledgeConfig)] }

/-- The knowledge block of the upload_chunk filter test. -/
def knowledgeBlock : Block :=
  { id := "knowledge-block", name := "Knowledge Block", type := "knowledge", enabled := true,
    params :=
      [ ("operation", .str "upload_chunk"),
        ("query", .str "<start.docName>"),
        ("knowledgeBaseIds", .str "kb-1"),
        ("documentId", .str "doc-1"),
        ("content", .str "chunk content") ] }

/-- The two-parallels workflow of the parallel-reference tests. -/
def parWorkflow : Workflow :=
  { blocks :=
      [ { id := "parallel-1", name := "Parallel 1", type := "parallel", enabled := true, params := [] },
        { id := "parallel-2", name := "Parallel 2", type := "parallel", enabled := true, params := [] },
        { id := "function-1", name := "Function 1", type := "function", enabled := true, params := [] } ],
    connections := [], loops := [],
    parallels := [ { id := "parallel-1", nodes := [], distribution := none },
                   { id := "parallel-2", nodes := [], distribution := none } ] }

/-- Resolver environment of the parallel-reference tests. -/
def parEnv : ResolverEnv :=
  { workflow := parWorkflow, envVars := [], workflowVars := [],
    accessibleBlocksMap := some
      [ ("parallel-1", ["parallel-1", "parallel-2", "function-1"]),
        ("parallel-2", ["parallel-1", "parallel-2", "function-1"]),
        ("function-1", ["parallel-1", "parallel-2", "function-1"]) ],
    secretKeys := ["apiKey", "url"], blockConfigs := [] }

/-- Execution context of the parallel-reference tests: both parallels have
executed with recorded results. -/
def parCtx : ExecContext :=
  { blockOutputs :=
      [ ("parallel-1", .obj [("results", .arr [.str "result1", .str "result2"])]),
        ("parallel-2", .obj [("results", .arr [.str "result3", .str "result4"])]) ],
    activeExecutionPath := ["parallel-1", "parallel-2", "function-1"],
    loopIterations := [], loopItems := [] }

/-! Section: Scanner lemmas

The matcher preserves the original text byte-for-byte outside matched
spans; for a scan that accepted no token this means reassembly is the
identity. -/

theorem rebuild_flushPend (p : List Char) (r : List Seg) :
    rebuild (flushPend p r) = p.reverse ++ rebuild r := by
  unfold flushPend
  split
  · next h =>
    rw [List.isEmpty_iff.mp h]
    simp
  · simp [rebuild]

theorem scanGo_rebuild (input : List Char) : ∀ (pend : List Char) (inner : Option (List Char)),
    rebuild (scanGo input pend inner) =
      pend.reverse ++ (match inner with | none => [] | some i => '<' :: i.reverse) ++ input := by
  induction input with
  | nil =>
    intro pend inner
    cases inner with
    | none => simp [scanGo, rebuild_flushPend, rebuild]
    | some i => simp [scanGo, rebuild_flushPend, rebuild, List.reverse_append]
  | cons c cs ih =>
    intro pend inner
    cases inner with
    | none =>
      by_cases h : c = '<'
      · subst h
        rw [show scanGo ('<' :: cs) pend none = scanGo cs pend (some []) from by
          simp [scanGo]]
        rw [ih]
        simp
      · rw [show scanGo (c :: cs) pend none = scanGo cs (c :: pend) none from by
          simp [scanGo, h]]
        rw [ih]
        simp
    | some i =>
      by_cases h : c = '>'
      · subst h
        by_cases hr : refShapeOk i.reverse
        · rw [show scanGo ('>' :: cs) pend (some i) =
              flushPend pend (.tok i.reverse :: scanGo cs [] none) from by
            simp [scanGo, hr]]
          rw [rebuild_flushPend]
          simp [rebuild, ih]
        · rw [show scanGo ('>' :: cs) pend (some i) =
              scanGo cs ('>' :: i ++ '<' :: pend) none from by
            simp [scanGo, hr]]
          rw [ih]
          simp [List.reverse_append]
      · rw [show scanGo (c :: cs) pend (some i) = scanGo cs pend (some (c :: i)) from by
          simp [scanGo, h]]
        rw [ih]
        simp

theorem spliceSegs_allLit (env : ResolverEnv) (ctx : ExecContext) (blk : Block) :
    ∀ segs : List Seg, segs.all Seg.isLit = true →
      spliceSegs env ctx blk segs = .ok (String.mk (rebuild segs)) := by
  intro segs
  induction segs with
  | nil => intro _; rfl
  | cons s rest ih =>
    intro h
    cases s with
    | lit l =>
      have hrest : rest.all Seg.isLit = true := by
        simpa [List.all_cons, Seg.isLit] using h
      have hr := ih hrest
      simp [spliceSegs, hr, rebuild]
      rfl
    | tok t =>
      simp [List.all_cons, Seg.isLit] at h

/-- C8: a string parameter whose angle-bracket spans do not conform to the
HEAD[.PATH] identifier-path shape (and which triggers no environment
substitution) is returned unchanged byte-for-byte by the resolution pass;
conforming references elsewhere in the same string are still resolved per
their own rules. -/
theorem claim_C8 :
    (∀ (env : ResolverEnv) (ctx : ExecContext) (blk : Block) (key s : String),
      (scanRefs s).all Seg.isLit = true →
      (scanGo (trimChars s.data) [] none).all Seg.isLit = true →
      env.secretKeys.contains key = false →
      isWholeEnvToken s = false →
      resolveString env ctx blk key s = .ok (.str s)) ∧
    resolveInputs baseEnv
        (testBlockWith
          [ ("content1", .str "value < 5 is true"),
            ("content2", .str "check 8 > x condition"),
            ("content3", .str "result = 10 + 5"),
            ("expr", .str "x < 5 && 8 > b") ]) mockCtx
      = .ok
          [ ("content1", .str "value < 5 is true"),
            ("content2", .str "check 8 > x condition"),
            ("content3", .str "result = 10 + 5"),
            ("expr", .str "x < 5 && 8 > b") ] ∧
    resolveInputs baseEnv
        (testBlockWith [("mixed", .str "Hello <variable.stringVar>! and b < a")]) mockCtx
      = .ok [("mixed", .str "Hello Hello! and b < a")] := by
  refine ⟨?_, rfl, rfl⟩
  intro env ctx blk key s h1 h2 h3 h4
  have henv : resolveEnvInString env key s = .ok s := by
    unfold resolveEnvInString
    rw [if_neg (by rw [h3, h4]; simp)]
  by_cases hp : isPassThroughParam blk.type key
  · simp [resolveString, hp]
  · have hout : spliceSegs env ctx blk (scanRefs s) = .ok (String.mk (rebuild (scanRefs s))) :=
      spliceSegs_allLit env ctx blk _ h1
    have hrb : rebuild (scanRefs s) = s.data := by
      have h := scanGo_rebuild s.data [] none
      simpa [scanRefs] using h
    have houts : spliceSegs env ctx blk (scanRefs s) = .ok s := by
      rw [hout, hrb]
    unfold resolveString
    rw [if_neg hp]
    rcases hm : scanGo (trimChars s.data) [] none with _ | ⟨s1, rest⟩
    · simp [houts, henv, Bind.bind, Except.bind, Except.map]
    · cases s1 with
      | lit l => simp [houts, henv, Bind.bind, Except.bind, Except.map]
      | tok t =>
        cases rest with
        | nil => rw [hm] at h2; simp [Seg.isLit] at h2
        | cons s2 rest2 => simp [houts, henv, Bind.bind, Except.bind, Except.map]

/-- Witness for C8 at a concrete input of the test suite. -/
theorem claim_C8_witness :
    resolveString baseEnv mockCtx (testBlockWith []) "content1" "x < 5 && 8 > b"
      = .ok (.str "x < 5 && 8 > b") :=
  claim_C8.1 baseEnv mockCtx (testBlockWith []) "content1" "x < 5 && 8 > b"
    (by rfl) (by rfl) (by rfl) (by rfl)

/-- C1: a block-output reference whose target exists, is enabled and is
authorized, but whose target has not executed (no recorded output) or lies
outside the active execution path, resolves to the empty string and raises
no error. -/
theorem claim_C1 :
    (∀ (env : ResolverEnv) (ctx : ExecContext) (blk : Block) (head : String)
        (path : List String) (target : Block),
      head ≠ "variable" →
      contextValue env ctx blk head path = none →
      blockTargetOf env.workflow head = some target →
      target.enabled = true →
      blockAuthorized env blk.id target = true →
      (assocLookup ctx.blockOutputs target.id = none ∨
        ctx.activeExecutionPath.contains target.id = false) →
      resolveTok env ctx blk head path = .ok (some (.blockRef, .str ""))) ∧
    resolveInputs baseEnv (testBlockWith [("inactiveRef", .str "<condition-block.result>")]) mockCtx
      = .ok [("inactiveRef", .str "")] := by
  refine ⟨?_, rfl⟩
  intro env ctx blk head path target hvar hctx htgt hen hauth hexec
  unfold resolveTok
  rw [if_neg hvar, hctx, htgt]
  rcases hexec with h | h
  · simp [resolveBlockTarget, hen, hauth, h, Except.map]
  · cases hout : assocLookup ctx.blockOutputs target.id with
    | none => simp [resolveBlockTarget, hen, hauth, hout, Except.map]
    | some out =>
      have h2 : target.id ∉ ctx.activeExecutionPath := by simpa using h
      simp [resolveBlockTarget, hen, hauth, hout, h2, Except.map]

/-- Witness for C1: the sample workflow's condition block is accessible and
enabled but has not executed. -/
theorem claim_C1_witness :
    resolveTok baseEnv mockCtx (testBlockWith []) "condition-block" ["result"]
      = .ok (some (.blockRef, .str "")) :=
  claim_C1.1 baseEnv mockCtx (testBlockWith []) "condition-block" ["result"]
    { id := "condition-block", name := "Condition", type := "condition",
      enabled := true, params := [] }
    (by decide) (by rfl) (by rfl) (by rfl) (by rfl) (Or.inl (by rfl))

/-- C3: a block-output reference to a disabled target raises
`DisabledBlockReference` naming the block, for every accessibility map and
every execution context (the enabled check precedes both the accessibility
check and the executed check). -/
theorem claim_C3 :
    (∀ (env : ResolverEnv) (ctx : ExecContext) (blk : Block) (head : String)
        (path : List String) (target : Block),
      head ≠ "variable" →
      contextValue env ctx blk head path = none →
      blockTargetOf env.workflow head = some target →
      target.enabled = false →
      resolveTok env ctx blk head path = .error (.disabledBlockReference target.name)) ∧
    resolveInputs baseEnv (testBlockWith [("disabledRef", .str "<disabled-block.result>")]) mockCtx
      = .error (.disabledBlockReference "Disabled Block") := by
  refine ⟨?_, rfl⟩
  intro env ctx blk head path target hvar hctx htgt hen
  unfold resolveTok
  rw [if_neg hvar, hctx, htgt]
  simp [resolveBlockTarget, hen, Except.map]

/-- Witness for C3 at the sample workflow's disabled block. -/
theorem claim_C3_witness :
    resolveTok baseEnv mockCtx (testBlockWith []) "disabled-block" ["result"]
      = .error (.disabledBlockReference "Disabled Block") :=
  claim_C3.1 baseEnv mockCtx (testBlockWith []) "disabled-block" ["result"]
    { id := "disabled-block", name := "Disabled Block", type := "generic",
      enabled := false, params := [] }
    (by decide) (by rfl) (by rfl) (by rfl)

/-- C2: a block-output reference whose target exists and is enabled but is
not a member of the referencing block's accessibility set raises
`UnconnectedBlockReference`, and the error enumerates the display names of
the accessible workflow blocks — in particular the starter block and any
directly connected block that the accessibility map contains. -/
theorem claim_C2 :
    (∀ (env : ResolverEnv) (ctx : ExecContext) (blk : Block) (head : String)
        (path : List String) (target : Block),
      head ≠ "variable" →
      contextValue env ctx blk head path = none →
      blockTargetOf env.workflow head = some target →
      target.enabled = true →
      blockAuthorized env blk.id target = false →
      resolveTok env ctx blk head path
        = .error (.unconnectedBlockReference head (accessibleNames env blk.id))) ∧
    (∀ (env : ResolverEnv) (blkId : String) (b : Block),
      b ∈ env.workflow.blocks →
      (accessibleIds env blkId).contains b.id = true →
      b.name ∈ accessibleNames env blkId) ∧
    resolveInputs connEnv
        { id := "test-block", name := "Test Block", type := "function", enabled := true,
          params := [("code", .str "return <isolated-block.content>")] } connCtx
      = .error (.unconnectedBlockReference "isolated-block"
          ["Start", "Agent Block", "Function Block"]) := by
  refine ⟨?_, ?_, rfl⟩
  · intro env ctx blk head path target hvar hctx htgt hen hauth
    unfold resolveTok
    rw [if_neg hvar, hctx, htgt]
    simp [resolveBlockTarget, hen, hauth, Except.map]
  · intro env blkId b hb hacc
    unfold accessibleNames
    exact List.mem_map.mpr ⟨b, List.mem_filter.mpr ⟨hb, hacc⟩, rfl⟩

/-- Witness for C2: the isolated block of the connection workflow exists,
is enabled, and is absent from the test block's accessibility set; the
starter and the directly connected agent block appear in the enumerated
names. -/
theorem claim_C2_witness :
    resolveTok connEnv connCtx
        { id := "test-block", name := "Test Block", type := "function", enabled := true,
          params := [] } "isolated-block" ["content"]
      = .error (.unconnectedBlockReference "isolated-block"
          ["Start", "Agent Block", "Function Block"]) ∧
    "Start" ∈ accessibleNames connEnv "test-block" ∧
    "Agent Block" ∈ accessibleNames connEnv "test-block" := by
  refine ⟨?_, ?_, ?_⟩
  · have h := claim_C2.1 connEnv connCtx
      { id := "test-block", name := "Test Block", type := "function", enabled := true,
        params := [] } "isolated-block" ["content"]
      { id := "isolated-block", name := "Isolated Block", type := "agent", enabled := true,
        params := [] }
      (by decide) (by rfl) (by rfl) (by rfl) (by rfl)
    simpa using h
  · exact claim_C2.2.1 connEnv "test-block"
      { id := "starter-1", name := "Start", type := "starter", enabled := true, params := [] }
      (List.Mem.head _) (by rfl)
  · exact claim_C2.2.1 connEnv "test-block"
      { id := "agent-1", name := "Agent Block", type := "agent", enabled := true, params := [] }
      (List.Mem.tail _ (List.Mem.head _)) (by rfl)

/-- C4 fails on the code: in the connection workflow, the token
`return <nonexistent.value>` has a HEAD that matches no variable and no
block, yet `resolveInputs` raises an `UnconnectedBlockReference` error that
enumerates the accessible block names instead of leaving the token as
literal text (the behaviour the repository's own test suite requires). -/
theorem claim_C4_counterexample :
    resolveInputs connEnv
        { id := "test-block-2", name := "Test Block 2", type := "function", enabled := true,
          params := [("code", .str "return <nonexistent.value>")] } connCtx
      = .error (.unconnectedBlockReference "nonexistent" ["Start", "Agent Block"]) ∧
    findBlockByRef connWorkflow "nonexistent" = none ∧
    lookupVariableByName connEnv "nonexistent" = none :=
  ⟨rfl, rfl, rfl⟩

/-- C4 (amended): a bracket token whose interior does not conform to the
reference grammar is left as literal text (see C8), but a conforming
block-output token whose HEAD matches no known variable and no block is a
hard deny: absence from the accessibility set is independent of whether
the block exists, so `resolveInputs` raises `UnconnectedBlockReference`
enumerating the accessible block names. -/
theorem claim_C4 :
    ∀ (env : ResolverEnv) (ctx : ExecContext) (blk : Block) (head : String)
      (path : List String),
      head ≠ "variable" →
      contextValue env ctx blk head path = none →
      blockTargetOf env.workflow head = none →
      resolveTok env ctx blk head path
        = .error (.unconnectedBlockReference head (accessibleNames env blk.id)) := by
  intro env ctx blk head path hvar hctx htgt
  unfold resolveTok
  rw [if_neg hvar, hctx, htgt]

/-- Witness for the amended C4 at the test suite's concrete input. -/
theorem claim_C4_witness :
    resolveTok connEnv connCtx
        { id := "test-block-2", name := "Test Block 2", type := "function", enabled := true,
          params := [] } "nonexistent" ["value"]
      = .error (.unconnectedBlockReference "nonexistent" ["Start", "Agent Block"]) := by
  have h := claim_C4 connEnv connCtx
    { id := "test-block-2", name := "Test Block 2", type := "function", enabled := true,
      params := [] } "nonexistent" ["value"]
    (by decide) (by rfl) (by rfl)
  simpa using h

/-- C5: a workflow variable's raw text is coerced per its declared type
(number → numeric parse, boolean/object/plain per their rules), and
placement decides the shape: a parameter that is solely the reference takes
the native typed value, while a reference embedded in text is spliced as
its string form ("The number is <variable.numberVar>" → "The number is 42"). -/
theorem claim_C5 :
    (∀ (raw : String) (n : Int),
      parseIntText raw = some n →
      coerceVariable { id := "var2", name := "numberVar", type := "number", value := raw }
          = .ok (.num n) ∧
        resolveTok (baseEnvWith raw) mockCtx (testBlockWith []) "variable" ["numberVar"]
          = .ok (some (.variableRef, .num n))) ∧
    resolveInputs baseEnv
        (testBlockWith
          [("directRef", .str "<variable.numberVar>"),
           ("interpolated", .str "The number is <variable.numberVar>")]) mockCtx
      = .ok [("directRef", .num 42), ("interpolated", .str "The number is 42")] ∧
    resolveInputs baseEnv
        (testBlockWith
          [("directRef", .str "<variable.boolVar>"),
           ("interpolated", .str "Is it true? <variable.boolVar>")]) mockCtx
      = .ok [("directRef", .bool true), ("interpolated", .str "Is it true? true")] ∧
    resolveInputs baseEnv (testBlockWith [("directRef", .str "<variable.objectVar>")]) mockCtx
      = .ok [("directRef", .obj [("name", .str "John"), ("age", .num 30)])] ∧
    resolveInputs baseEnv (testBlockWith [("directRef", .str "<variable.arrayVar>")]) mockCtx
      = .ok [("directRef", .arr [.num 1, .num 2, .num 3])] ∧
    resolveInputs baseEnv
        (testBlockWith
          [("directRef", .str "<variable.plainVar>"),
           ("interpolated", .str "Content: <variable.plainVar>")]) mockCtx
      = .ok [("directRef", .str "Raw text without quotes"),
             ("interpolated", .str "Content: Raw text without quotes")] := by
  refine ⟨?_, rfl, rfl, rfl, rfl, rfl⟩
  intro raw n h
  have hco : coerceVariable { id := "var2", name := "numberVar", type := "number", value := raw }
      = .ok (.num n) := by
    unfold coerceVariable
    rw [if_pos rfl, h]
  refine ⟨hco, ?_⟩
  have hvar : lookupVariableByName (baseEnvWith raw) (String.intercalate "." ["numberVar"])
      = some { id := "var2", name := "numberVar", type := "number", value := raw } := rfl
  unfold resolveTok
  rw [if_pos rfl]
  simp [hvar, hco, Except.map]

/-- Witness for C5's general part at the suite's concrete raw text "42". -/
theorem claim_C5_witness :
    coerceVariable { id := "var2", name := "numberVar", type := "number", value := "42" }
        = .ok (.num 42) ∧
      resolveTok baseEnv mockCtx (testBlockWith []) "variable" ["numberVar"]
        = .ok (some (.variableRef, .num 42)) :=
  claim_C5.1 "42" 42 (by rfl)

/-- C6 fails on the code: `return <variable.stringVar>` in a function
block's code splices the resolved string value "Hello" raw and unquoted,
not as the quoted literal the claim requires for every string spliced into
a code-context block (variable references always splice raw; the test
"should handle code input for function blocks" requires this). -/
theorem claim_C6_counterexample :
    resolveInputs baseEnv
        (functionBlockWith "code-block" "Code Block"
          [("code", .str "return <variable.stringVar>")]) mockCtx
      = .ok [("code", .str "return Hello")] ∧
    isCodeBlockType "function" = true ∧
    ("return Hello" : String) ≠ "return " ++ jsonQuote "Hello" :=
  ⟨rfl, rfl, by decide⟩

/-- C6 (amended): a string resolved from a block-output reference and
spliced into a code-context block is rendered as a quoted, escaped string
literal, and spliced non-string values render as bare literal text; plain
display/content blocks splice strings raw; variable references splice
their value raw even in code-context blocks. -/
theorem claim_C6 :
    (∀ s : String, spliceText true .blockRef (.str s) = jsonQuote s) ∧
    (∀ s : String, spliceText false .blockRef (.str s) = s) ∧
    (∀ (c : Bool) (n : Int), spliceText c .blockRef (.num n) = toString n) ∧
    (∀ (c : Bool) (v : Value), spliceText c .variableRef v = valueToText v) ∧
    resolveInputs connEnv
        { id := "function-1", name := "Function Block", type := "function", enabled := true,
          params := [("code", .str "return <start.input>")] } connCtx
      = .ok [("code", .str "return \"Hello World\"")] ∧
    resolveInputs connEnv
        { id := "test-response", name := "Test Response", type := "response", enabled := true,
          params := [("content", .str "<start.input>")] } connCtx
      = .ok [("content", .str "Hello World")] ∧
    resolveInputs connEnv
        { id := "test-other", name := "Other Block", type := "other", enabled := true,
          params := [("content", .str "content: <start.input>")] } connCtx
      = .ok [("content", .str "content: Hello World")] ∧
    resolveInputs parEnv
        { id := "function-1", name := "Function 1", type := "function", enabled := true,
          params := [("code", .str "x = <Parallel1.results>;")] } parCtx
      = .ok [("code", .str "x = [\"result1\",\"result2\"];")] := by
  refine ⟨fun s => rfl, fun s => rfl, fun c n => rfl, ?_, rfl, rfl, rfl, rfl⟩
  intro c v
  cases v <;> rfl

/-- C7: an environment token is substituted only when the encompassing
field is a designated secret-bearing field or when the string consists of
nothing but the token; a token embedded among other text in an ordinary
field is left untouched verbatim. -/
theorem claim_C7 :
    (∀ (env : ResolverEnv) (key s : String),
      env.secretKeys.contains key = false →
      isWholeEnvToken s = false →
      resolveEnvInString env key s = .ok s) ∧
    resolveInputs baseEnv
        { id := "test-block", name := "Test API Block", type := "api", enabled := true,
          params :=
            [ ("apiKey", .str "\x7b\x7bAPI_KEY\x7d\x7d"),
              ("url", .str "https://example.com?key=\x7b\x7bAPI_KEY\x7d\x7d"),
              ("regularParam", .str "Base URL is: \x7b\x7bBASE_URL\x7d\x7d") ] } mockCtx
      = .ok
          [ ("apiKey", .str "test-api-key"),
            ("url", .str "https://example.com?key=test-api-key"),
            ("regularParam", .str "Base URL is: \x7b\x7bBASE_URL\x7d\x7d") ] ∧
    resolveInputs baseEnv (testBlockWith [("explicitEnv", .str "\x7b\x7bBASE_URL\x7d\x7d")]) mockCtx
      = .ok [("explicitEnv", .str "https://api.example.com")] ∧
    resolveInputs baseEnv
        (testBlockWith [("regularParam", .str "Value with \x7b\x7bAPI_KEY\x7d\x7d embedded")]) mockCtx
      = .ok [("regularParam", .str "Value with \x7b\x7bAPI_KEY\x7d\x7d embedded")] := by
  refine ⟨?_, rfl, rfl, rfl⟩
  intro env key s h1 h2
  unfold resolveEnvInString
  rw [if_neg (by rw [h1, h2]; simp)]

/-- Witness for C7's general part: the embedded token of the regular-field
test stays verbatim. -/
theorem claim_C7_witness :
    resolveEnvInString baseEnv "regularParam" "Value with \x7b\x7bAPI_KEY\x7d\x7d embedded"
      = .ok "Value with \x7b\x7bAPI_KEY\x7d\x7d embedded" :=
  claim_C7.1 baseEnv "regularParam" "Value with \x7b\x7bAPI_KEY\x7d\x7d embedded"
    (by rfl) (by rfl)

/-- C9: for a block that is a declared member of exactly one loop,
`<loop.index>` resolves to the loop's recorded iteration count minus one,
delivered as a native number when the reference is the whole parameter. -/
theorem claim_C9 :
    (∀ (env : ResolverEnv) (ctx : ExecContext) (blk : Block) (l : LoopDef) (n : Int),
      loopsContaining env.workflow blk.id = [l] →
      assocLookup ctx.loopIterations l.id = some n →
      resolveTok env ctx blk "loop" ["index"] = .ok (some (.contextRef, .num (n - 1)))) ∧
    resolveInputs loopEnv
        { id := "function-1", name := "Process Index", type := "function", enabled := true,
          params := [("index", .str "<loop.index>")] } loopCtx
      = .ok [("index", .num 2)] := by
  refine ⟨?_, rfl⟩
  intro env ctx blk l n hl hn
  unfold resolveTok
  rw [if_neg (by decide)]
  unfold contextValue
  rw [if_pos rfl, hl]
  simp [resolveLoopPath, hn]

/-- Witness for C9 at the loop fixture (recorded iteration count 3). -/
theorem claim_C9_witness :
    resolveTok loopEnv loopCtx
        { id := "function-1", name := "Process Index", type := "function", enabled := true,
          params := [] } "loop" ["index"]
      = .ok (some (.contextRef, .num 2)) := by
  have h := claim_C9.1 loopEnv loopCtx
    { id := "function-1", name := "Process Index", type := "function", enabled := true,
      params := [] }
    { id := "loop-1", nodes := ["function-1"], iterations := 5, loopType := "for",
      forEachItems := none }
    3 (by rfl) (by rfl)
  simpa using h

/-- C10: in the post-resolution conditional filter, a field is retained in
the returned input map iff its declared sub-fields impose no constraint or
some declared sub-field with that id has no visibility condition or a
condition — with the negation flag and the single-level and-composition
applied — that evaluates true against the already-resolved sibling values;
and when the block's declarative schema cannot be found, no filtering
occurs and every resolved field is retained. -/
theorem claim_C10 :
    (∀ resolved : List (String × Value), filterInputs none resolved = resolved) ∧
    (∀ (cfg : BlockConfig) (resolved : List (String × Value)) (k : String) (v : Value),
      (k, v) ∈ filterInputs (some cfg) resolved ↔
        (k, v) ∈ resolved ∧
          (cfg.subBlocks.filter (fun sb => sb.id == k) = [] ∨
           ∃ sb ∈ cfg.subBlocks.filter (fun sb => sb.id == k),
             sb.condition = none ∨
               ∃ c, sb.condition = some c ∧ condHolds resolved c = true)) ∧
    (∀ (resolved : List (String × Value)) (f : String) (op : CondOperand),
      condMatches resolved { field := f, operand := op, negate := true }
        = !condMatches resolved { field := f, operand := op, negate := false }) ∧
    (∀ (resolved : List (String × Value)) (b a : SimpleCondition),
      condHolds resolved { base := b, andAlso := some a }
        = (condMatches resolved b && condMatches resolved a)) ∧
    resolveInputs knowledgeEnv knowledgeBlock mockCtx
      = .ok [("operation", .str "upload_chunk"), ("documentId", .str "doc-1"),
             ("content", .str "chunk content")] ∧
    resolveInputs baseEnv
        { id := "unknown-block", name := "Unknown Block", type := "unknown-type",
          enabled := true,
          params := [("param1", .str "value1"), ("param2", .str "value2")] } mockCtx
      = .ok [("param1", .str "value1"), ("param2", .str "value2")] := by
  refine ⟨fun resolved => rfl, ?_, fun resolved f op => rfl, fun resolved b a => rfl, rfl, rfl⟩
  intro cfg resolved k v
  simp only [filterInputs, List.mem_filter, Bool.or_eq_true, List.isEmpty_iff, List.any_eq_true]
  constructor
  · rintro ⟨hm, hcond⟩
    refine ⟨hm, ?_⟩
    rcases hcond with he | ⟨sb, hsb, hf⟩
    · exact Or.inl he
    · right
      refine ⟨sb, hsb, ?_⟩
      cases hc : sb.condition with
      | none => exact Or.inl rfl
      | some c =>
        right
        refine ⟨c, rfl, ?_⟩
        rw [hc] at hf
        exact hf
  · rintro ⟨hm, hcond⟩
    refine ⟨hm, ?_⟩
    rcases hcond with he | ⟨sb, hsb, hf⟩
    · exact Or.inl he
    · right
      refine ⟨sb, hsb, ?_⟩
      rcases hf with hnone | ⟨c, hc, hh⟩
      · rw [hnone]
      · rw [hc]
        exact hh
